import Mathlib

/-!
Verification of the order extraction and normalization pipeline of
kojima-farm-app (`src/app.py`, with the earlier snapshot
`src/kojima-farm-app/app.py`).

Python strings are Lean `String`s; loosely typed candidate fields are
`PyVal`; the mutable store/item configuration that the source loads through
`config_manager` is a `Config` value threaded explicitly through every
function that reads or learns names.  External effects that do not touch the
extracted data (Streamlit display calls, warning lists) are dropped; a Python
exception escaping a function is modelled as `Option.none`.
-/

namespace KF

/-- Python `a in b` membership test on character lists (substring containment;
the empty needle is contained in everything, as in Python). -/
def listInfixOf (a : List Char) : List Char → Bool
  | [] => a.isEmpty
  | c :: t => a.isPrefixOf (c :: t) || listInfixOf a t

/-- Python `a in b` on strings. -/
def pyIn (a b : String) : Bool := listInfixOf a.data b.data

/-- Leading/trailing-whitespace removal on a character list. -/
def pyStripL (l : List Char) : List Char :=
  ((l.dropWhile Char.isWhitespace).reverse.dropWhile Char.isWhitespace).reverse

/-- Python `str.strip()`. -/
def pyStrip (s : String) : String := String.mk (pyStripL s.data)

/-- Loosely typed value of a candidate-line field, as produced by parsing the
AI response JSON: absent JSON null, an integer, or a string. -/
inductive PyVal where
  | vNone : PyVal
  | vInt : Int → PyVal
  | vStr : String → PyVal
deriving DecidableEq

/-- Numeric value of a digit list, as Python `int` applied to a digit string. -/
def digitsVal (l : List Char) : Nat := l.foldl (fun a c => 10 * a + (c.toNat - 48)) 0

/-- Source `safe_int` (src/app.py lines 30-34): `None` gives 0, `int` values
pass through unchanged, anything else is stringified, every non-digit
character is removed and the remaining digits (if any) are parsed, else 0. -/
def safe_int : PyVal → Int
  | PyVal.vNone => 0
  | PyVal.vInt n => n
  | PyVal.vStr s =>
    let ds := s.data.filter Char.isDigit
    if ds.isEmpty then 0 else Int.ofNat (digitsVal ds)

/-- The dynamic configuration the source loads through `config_manager`:
the known store list and the item alias table (canonical name, variants). -/
structure Config where
  stores : List String
  items : List (String × List String)
deriving DecidableEq

/-- Modelled from the spec: `config_manager.auto_learn_store` is not under
`src/`.  Spec section 4.3 says an unknown store name is registered as a new
known store and the learn operation returns the canonical name — the raw
text itself when registered fresh. -/
def auto_learn_store (s : String) (cfg : Config) : String × Config :=
  (s, ⟨cfg.stores ++ [s], cfg.items⟩)

/-- Modelled from the spec: `config_manager.auto_learn_item` is not under
`src/`.  Spec section 3 (AliasTable) says a new unseen name becomes its own
canonical entry and auto-learn returns that canonical string. -/
def auto_learn_item (s : String) (cfg : Config) : String × Config :=
  (s, ⟨cfg.stores, cfg.items ++ [(s, [s])]⟩)

/-- The first alias-table entry matched by the source's lookup (src/app.py
lines 53-54): exact membership of the name in the variants list, or some
variant occurring as a substring of the name; the canonical key of the first
entry that matches is returned. -/
def firstItemMatch (items : List (String × List String)) (n : String) : Option String :=
  (items.find? (fun kv => kv.2.contains n || kv.2.any (fun v => pyIn v n))).map Prod.fst

/-- Source `normalize_item_name` (src/app.py lines 46-60), with the alias
table passed explicitly; `auto_learn_item` is spec-modelled. -/
def normalize_item_name (item_name : String) (auto_learn : Bool) (cfg : Config) :
    String × Config :=
  if item_name = "" then ("", cfg)
  else
    let n := pyStrip item_name
    match firstItemMatch cfg.items n with
    | some k => (k, cfg)
    | none => if auto_learn then auto_learn_item n cfg else (n, cfg)

/-- Source `validate_store_name` (src/app.py lines 63-81): exact match against
the known store list, then substring match in either direction, then
auto-learn (spec-modelled) or `None`. -/
def validate_store_name (store_name : String) (auto_learn : Bool) (cfg : Config) :
    Option String × Config :=
  if store_name = "" then (none, cfg)
  else
    let s := pyStrip store_name
    if cfg.stores.contains s then (some s, cfg)
    else
      match cfg.stores.find? (fun ks => pyIn ks s || pyIn s ks) with
      | some ks => (some ks, cfg)
      | none =>
        if auto_learn then
          let l := auto_learn_store s cfg
          (some l.1, l.2)
        else (none, cfg)

/-- Pre-reconciliation candidate line: a loosely typed record in which every
field may be absent (the key missing from the parsed JSON object). -/
structure Candidate where
  store : Option PyVal
  item : Option PyVal
  spec : Option PyVal
  unit : Option PyVal
  boxes : Option PyVal
  remainder : Option PyVal
deriving DecidableEq

/-- Reconciled order line as built by `validate_and_fix_order_data`
(src/app.py lines 342-349): strings for store, item and spec, integers for
the three quantity fields.  No half-box flag exists on this record. -/
structure Entry where
  store : String
  item : String
  spec : String
  unit : Int
  boxes : Int
  remainder : Int
deriving DecidableEq

/-- Python `value.strip()` on a loosely typed field: succeeds exactly on
strings; on `None` or an `int` the attribute access raises (`none`). -/
def pyStripVal : PyVal → Option String
  | PyVal.vStr s => some (pyStrip s)
  | _ => none

/-- Python falsiness of an optional string (`not validated_store`). -/
def pyFalsyOpt : Option String → Bool
  | none => true
  | some s => s == ""

/-- Python `validated_store or store`. -/
def pyOr (a : Option String) (b : String) : String :=
  match a with
  | none => b
  | some s => if s = "" then b else s

/-- Source fallback heuristic (src/app.py lines 317-320): the first known
store that shares at least one character with the raw store text. -/
def charHeuristic (stores : List String) (store : String) : Option String :=
  stores.find? (fun ks => ks.data.any (fun ch => store.data.contains ch))

/-- A candidate field that `.strip()` survives: absent (defaults to a string)
or carrying a string. -/
def isStrField : Option PyVal → Bool
  | none => true
  | some (PyVal.vStr _) => true
  | some _ => false

/-- Candidates whose store, item and spec fields are strings or absent: the
ones the reconciliation loop processes without raising. -/
def wellTypedB (c : Candidate) : Bool :=
  isStrField c.store && isStrField c.item && isStrField c.spec

/-- The raw (stripped) store text of a candidate, as read at src/app.py
line 304; `""` for an untyped field (only used under `wellTypedB`). -/
def rawStoreOf (c : Candidate) : String :=
  (pyStripVal (c.store.getD (PyVal.vStr ""))).getD ""

/-- Store resolution of one loop iteration (src/app.py lines 307-320): the
validator's answer, then — when that answer is falsy and the text non-empty —
either auto-learn or the character heuristic of the error branch. -/
def resolveStore (auto_learn : Bool) (cfg : Config) (store : String) :
    Option String × Config :=
  let p1 := validate_store_name store auto_learn cfg
  if pyFalsyOpt p1.1 && !(store == "") then
    if auto_learn then
      let l := auto_learn_store store p1.2
      (some l.1, l.2)
    else
      match charHeuristic p1.2.stores store with
      | some ks => (some ks, p1.2)
      | none => (p1.1, p1.2)
  else (p1.1, p1.2)

/-- Item resolution of one loop iteration (src/app.py lines 322-330): the
normalizer's answer, then — when it is falsy and the text non-empty — a
second auto-learn (the non-learning branch only records an error). -/
def resolveItem (auto_learn : Bool) (cfg : Config) (item : String) :
    String × Config :=
  let p3 := normalize_item_name item auto_learn cfg
  if p3.1 == "" && !(item == "") then
    if auto_learn then auto_learn_item item p3.2 else (p3.1, p3.2)
  else (p3.1, p3.2)

/-- One iteration of the reconciliation loop body (src/app.py lines 302-350):
read and strip store/item, resolve the store name, resolve the item name,
coerce the quantity fields with `safe_int`, strip spec, and build the
validated entry.  `none` models the `AttributeError` raised by `.strip()` on
a non-string field. -/
def processEntry (auto_learn : Bool) (cfg : Config) (entry : Candidate) :
    Option (Entry × Config) :=
  match pyStripVal (entry.store.getD (PyVal.vStr "")) with
  | none => none
  | some store =>
    match pyStripVal (entry.item.getD (PyVal.vStr "")) with
    | none => none
    | some item =>
      let p2 := resolveStore auto_learn cfg store
      let p4 := resolveItem auto_learn p2.2 item
      let unit := safe_int (entry.unit.getD (PyVal.vInt 0))
      let boxes := safe_int (entry.boxes.getD (PyVal.vInt 0))
      let remainder := safe_int (entry.remainder.getD (PyVal.vInt 0))
      match pyStripVal (entry.spec.getD (PyVal.vStr "")) with
      | none => none
      | some spec =>
        some (⟨pyOr p2.1 store, if p4.1 = "" then item else p4.1, spec,
               unit, boxes, remainder⟩, p4.2)

/-- Source `validate_and_fix_order_data` (src/app.py lines 290-365): the
per-candidate loop, threading the learned configuration; an empty input
yields an empty output.  `none` models an uncaught exception. -/
def validate_and_fix_order_data (auto_learn : Bool) :
    List Candidate → Config → Option (List Entry × Config)
  | [], cfg => some ([], cfg)
  | c :: rest, cfg =>
    match processEntry auto_learn cfg c with
    | none => none
    | some (e, cfg') =>
      match validate_and_fix_order_data auto_learn rest cfg' with
      | none => none
      | some (es, cfg'') => some (e :: es, cfg'')

/-- Re-expression of a reconciled entry as a candidate dictionary, exactly the
shape in which the app feeds `st.session_state.validated_data` back into
`validate_and_fix_order_data` (src/app.py line 644). -/
def entryToCandidate (e : Entry) : Candidate :=
  ⟨some (PyVal.vStr e.store), some (PyVal.vStr e.item), some (PyVal.vStr e.spec),
   some (PyVal.vInt e.unit), some (PyVal.vInt e.boxes), some (PyVal.vInt e.remainder)⟩

/-- Parsed JSON value, the result of `json.loads` on a model response. -/
inductive Json where
  | null : Json
  | num : Int → Json
  | str : String → Json
  | arr : List Json → Json
  | obj : List (String × Json) → Json

/-- Whether a parsed JSON value is an array (a list of candidate lines). -/
def Json.isArr : Json → Bool
  | Json.arr _ => true
  | _ => false

/-- Python truthiness of a parsed JSON value (`if order_data:`). -/
def pyTruthy : Json → Bool
  | Json.null => false
  | Json.num n => !(n == 0)
  | Json.str s => !(s == "")
  | Json.arr l => !l.isEmpty
  | Json.obj l => !l.isEmpty

/-- Python `str.split(sep)` on character lists (left-to-right,
non-overlapping; only called with a non-empty separator). -/
def pySplit (sep : List Char) : List Char → List (List Char)
  | [] => [[]]
  | c :: cs =>
    if sep.isPrefixOf (c :: cs) && !sep.isEmpty then
      [] :: pySplit sep (List.drop (sep.length - 1) cs)
    else
      match pySplit sep cs with
      | [] => [[c]]
      | h :: t => (c :: h) :: t
termination_by l => l.length
decreasing_by
  · simp only [List.length_drop, List.length_cons]; omega
  · simp only [List.length_cons]; omega

/-- The opening fence of a JSON code block. -/
def fenceJson : List Char := String.data "```json"

/-- A bare code fence. -/
def fence : List Char := String.data "```"

/-- The backtick character (head of both fence markers). -/
def btickChar : Char := (String.data "`").headD 'x'

/-- Fence stripping applied to a raw model response before `json.loads`
(src/app.py lines 152-159, identically lines 227-234; the early snapshot
src/kojima-farm-app/app.py line 38 has only the first branch): take the part
after the first occurrence of the JSON fence and before the next fence;
otherwise, with a bare fence present, take the first part containing both a
brace and a bracket; otherwise the text unchanged. -/
def extract_payload (t : String) : String :=
  if listInfixOf fenceJson t.data then
    String.mk ((pySplit fence ((pySplit fenceJson t.data).getD 1 [])).getD 0 [])
  else if listInfixOf fence t.data then
    match (pySplit fence t.data).find?
        (fun part => listInfixOf (String.data "\x7b") part && listInfixOf (String.data "[") part) with
    | some part => String.mk (pyStripL part)
    | none => t
  else t

/-- The retry loop shared by `get_order_data_from_text` (src/app.py lines
148-178) and `get_order_data_from_image` (lines 223-253): on each attempt the
raw response is fence-stripped, whitespace-stripped and parsed; a parse
failure (`json.JSONDecodeError`) retries; exhausting the attempts returns
`None`.  The external model call and `json.loads` are parameters:
`responses i` is the response text of attempt `i`, `parse` the JSON parser. -/
def tryAttempts (parse : String → Option Json) (responses : Nat → String) :
    Nat → Nat → Option Json
  | _, 0 => none
  | i, n + 1 =>
    match parse (pyStrip (extract_payload (responses i))) with
    | some d => some d
    | none => tryAttempts parse responses (i + 1) n

/-- Source `get_order_data_from_text` (src/app.py lines 101-178), reduced to
its observable retry/parse behaviour (the prompt construction does not affect
the returned value). -/
def get_order_data_from_text (parse : String → Option Json) (responses : Nat → String)
    (max_retries : Nat) : Option Json :=
  tryAttempts parse responses 0 max_retries

/-- Source `get_order_data` hybrid dispatch (src/app.py lines 256-287): with
OCR enabled, when OCR produced text of stripped length greater than 10 the
AI-text strategy result is used if truthy; in every other case the AI-vision
result is returned.  `ocrText` is the `extract_text_with_ocr` result
(`none` when OCR failed), `textResult` the AI-text strategy as an oracle and
`visionResult` the AI-vision strategy result. -/
def get_order_data (use_ocr : Bool) (ocrText : Option String)
    (textResult : String → Option Json) (visionResult : Option Json) : Option Json :=
  if use_ocr then
    match ocrText with
    | some t =>
      if ¬t = "" ∧ 10 < (pyStrip t).data.length then
        match textResult t with
        | some d => if pyTruthy d then some d else visionResult
        | none => visionResult
      else visionResult
    | none => visionResult
  else visionResult

/-- Follows the claim's words, not the source, for comparison with
`get_order_data`: a dispatcher that inspects the OCR result's parsed lines
and average confidence, falling back to AI-vision exactly when there are no
lines or the confidence is below the threshold 60. -/
def hybridDispatchClaim (ocrLines : List Json) (avgConfidence : Nat)
    (visionResult : Option Json) : Option Json :=
  if ocrLines.isEmpty || decide (avgConfidence < 60) then visionResult
  else some (Json.arr ocrLines)

/-- Modelled from the spec: `QuantityRules` has no function under `src/` —
the units-per-box table exists only as instruction text inside the AI prompts
(src/app.py lines 127-137); the table below transcribes those lines. -/
def itemRules : List (String × Nat) :=
  [("胡瓜(3本P)", 30), ("胡瓜(バラ)", 100), ("春菊", 30), ("青梗菜", 20), ("長ネギ(2本P)", 30)]

/-- Capacity of the intermediate half box (spec section 4.1). -/
def halfBoxThreshold : Nat := 50

/-- The only item with a half-box mode: the loose-pack (bulk) cucumber. -/
def bulkCucumberName : String := "胡瓜(バラ)"

/-- Result record of the packing computation. -/
structure PackResult where
  unit : Nat
  boxes : Nat
  remainder : Nat
  halfBoxFlag : Bool
deriving DecidableEq

/-- Modelled from the spec: `QuantityRules.boxesAndRemainder` (spec section
4.1) — no configured rule treats the whole quantity as remainder; otherwise
full boxes and remainder by division, and for the bulk cucumber a remainder
of at least 50 moves 50 units into a half box. -/
def boxesAndRemainder (totalQuantity : Nat) (itemName : String) : PackResult :=
  match (itemRules.find? (fun r => r.1 == itemName)).map Prod.snd with
  | none => ⟨0, 0, totalQuantity, false⟩
  | some u =>
    let b := totalQuantity / u
    let r := totalQuantity % u
    if itemName == bulkCucumberName && decide (halfBoxThreshold ≤ r) then
      ⟨u, b, r - halfBoxThreshold, true⟩
    else ⟨u, b, r, false⟩

/-- Per-line total quantity as computed by the aggregation loops (src/app.py
lines 621 and 654): `safe_int(unit) * safe_int(boxes) + safe_int(remainder)`
on the integer-valued fields of a reconciled entry. -/
def lineTotal (e : Entry) : Int :=
  safe_int (PyVal.vInt e.unit) * safe_int (PyVal.vInt e.boxes) +
    safe_int (PyVal.vInt e.remainder)

/-- Python `defaultdict(int)` update `m[k] += v`: the first pair with the key
is updated in place, a missing key is appended (insertion order kept). -/
def addTotal : List (String × Int) → String → Int → List (String × Int)
  | [], k, v => [(k, v)]
  | p :: ps, k, v => if p.1 = k then (p.1, p.2 + v) :: ps else p :: addTotal ps k v

/-- Source `item_totals` aggregation (src/app.py lines 618-622): sum the line
totals into a mapping keyed by item name. -/
def item_totals (data : List Entry) : List (String × Int) :=
  data.foldl (fun acc e => addTotal acc e.item (lineTotal e)) []

/-- Source `summary_packs` aggregation (src/app.py lines 652-655): the same
per-item summation as `item_totals`, built for the chat-summary text. -/
def summary_packs (data : List Entry) : List (String × Int) :=
  data.foldl (fun acc e => addTotal acc e.item (lineTotal e)) []

/-- First-position lookup in an association list (Python `dict` access). -/
def lookupTot : List (String × Int) → String → Option Int
  | [], _ => none
  | p :: ps, k => if p.1 = k then some p.2 else lookupTot ps k

/-- Sum of the line totals of the entries carrying a given item name: the
value the claim prescribes for that item. -/
def sumFor : List Entry → String → Int
  | [], _ => 0
  | e :: l, k => (if e.item = k then lineTotal e else 0) + sumFor l k

/-- Deduplication keeping the first occurrence of each key, accumulator
form. -/
def dedupInto : List String → List String → List String
  | acc, [] => acc
  | acc, k :: l => dedupInto (if acc.contains k then acc else acc ++ [k]) l

/-- Order of first occurrence of each element of a list. -/
def dedupFirst (l : List String) : List String := dedupInto [] l

/-- Small configuration used by concrete instances: one known store and one
alias-table entry whose key lists itself as a variant. -/
def cfgW : Config := ⟨["A"], [("B", ["B"])]⟩

/-- A reconciled entry over `cfgW`, stable under re-reconciliation. -/
def entryW : Entry := ⟨"A", "B", "x", 30, 2, 5⟩

/-- Candidate whose store text matches no known store (under `cfgW`). -/
def candUnknownStore : Candidate :=
  ⟨some (PyVal.vStr "ZZ"), some (PyVal.vStr "B"), none, none, none, none⟩

/-- Candidate with every field absent. -/
def blankCandidate : Candidate := ⟨none, none, none, none, none, none⟩

/-- The defaulted entry the reconciliation emits for `blankCandidate`. -/
def blankEntry : Entry := ⟨"", "", "", 0, 0, 0⟩

/-- Candidate carrying a negative integer in its unit field. -/
def candNeg : Candidate :=
  ⟨some (PyVal.vStr "A"), some (PyVal.vStr "B"), some (PyVal.vStr ""),
   some (PyVal.vInt (-5)), some (PyVal.vInt 1), some (PyVal.vInt 0)⟩

/-- The entry reconciliation emits for `candNeg` under `cfgW`. -/
def entryNeg : Entry := ⟨"A", "B", "", -5, 1, 0⟩

/-- Configuration whose single alias entry has a key that is neither a
variant of itself nor a substring match of its variants. -/
def cfg7 : Config := ⟨[], [("SG", ["sg"])]⟩

/-- Configuration whose second alias key is substring-matched by a variant of
the first entry. -/
def cfgX : Config := ⟨["S"], [("KA", ["2"]), ("K2", ["x"])]⟩

/-- Candidate whose item text matches the second alias entry of `cfgX`. -/
def candX : Candidate :=
  ⟨some (PyVal.vStr "S"), some (PyVal.vStr "x"), some (PyVal.vStr ""),
   some (PyVal.vInt 1), some (PyVal.vInt 1), some (PyVal.vInt 0)⟩

/-- First reconciliation of `candX` under `cfgX`. -/
def entryX1 : Entry := ⟨"S", "K2", "", 1, 1, 0⟩

/-- Second reconciliation (of `entryX1` re-expressed) under `cfgX`. -/
def entryX2 : Entry := ⟨"S", "KA", "", 1, 1, 0⟩

/-- Parser stub that fails on every input. -/
def parseNone : String → Option Json := fun _ => none

/-- Response stub with a constant response text. -/
def respConst : Nat → String := fun _ => "x"

/-- Parser stub returning a bare JSON object for one specific payload. -/
def parseObjStub : String → Option Json :=
  fun s => if s = "OBJ" then some (Json.obj []) else none

/-- Response stub whose every response is that payload. -/
def respObjStub : Nat → String := fun _ => "OBJ"

/-- An OCR text of stripped length 12 (above the dispatch threshold 10). -/
def longT : String := "0123456789AB"

/-- Two parsed candidate lines. -/
def cexLines : List Json :=
  [Json.obj [("item", Json.str "a")], Json.obj [("item", Json.str "b")]]

/-- AI-text oracle stub returning the two lines for the OCR text `longT`. -/
def trStub : String → Option Json :=
  fun t => if t = longT then some (Json.arr cexLines) else none

/-- AI-vision result stub, distinguishable from an array of lines. -/
def vStub : Option Json := some (Json.str "vision")

/-- Backtick-free prefix text around a fenced payload. -/
def aW : List Char := String.data "Here is the JSON: "

/-- Backtick-free payload text. -/
def pW : List Char := String.data "[1, 2]"

/-- Backtick-free trailing text after the closing fence. -/
def bW : List Char := String.data " hope it helps"

/-! ## Theorems -/

/-- C1: for every totalQuantity and every configured item, the packing
computation returns the item's units-per-box, the quotient as full boxes and
the residue as remainder, satisfies
`unit*boxes + remainder + (50 if halfBoxFlag else 0) = totalQuantity`, and
sets the half-box flag exactly for the bulk cucumber when the pre-adjustment
remainder reaches 50, subtracting 50 from the remainder in that case. -/
theorem c1_boxesAndRemainder (total : Nat) (item : String) (u : Nat)
    (h : (itemRules.find? (fun r => r.1 == item)).map Prod.snd = some u) :
    (boxesAndRemainder total item).unit = u ∧
    (boxesAndRemainder total item).boxes = total / u ∧
    (boxesAndRemainder total item).unit * (boxesAndRemainder total item).boxes +
        (boxesAndRemainder total item).remainder +
        (if (boxesAndRemainder total item).halfBoxFlag then halfBoxThreshold else 0) =
      total ∧
    ((boxesAndRemainder total item).halfBoxFlag = true ↔
      item = bulkCucumberName ∧ halfBoxThreshold ≤ total % u) ∧
    ((boxesAndRemainder total item).halfBoxFlag = true →
      (boxesAndRemainder total item).remainder + halfBoxThreshold = total % u) ∧
    ((boxesAndRemainder total item).halfBoxFlag = false →
      (boxesAndRemainder total item).remainder = total % u) := by
  have hdm : u * (total / u) + total % u = total := Nat.div_add_mod total u
  unfold boxesAndRemainder
  rw [h]
  dsimp only
  split
  next hc =>
    rw [Bool.and_eq_true, beq_iff_eq, decide_eq_true_eq] at hc
    obtain ⟨hb1, hb2⟩ := hc
    refine ⟨rfl, rfl, ?_, ?_, ?_, ?_⟩
    · show u * (total / u) + (total % u - halfBoxThreshold) +
        (if true = true then halfBoxThreshold else 0) = total
      have hred : (if true = true then halfBoxThreshold else 0) = halfBoxThreshold := rfl
      rw [hred]
      omega
    · simp [hb1, hb2]
    · intro _
      show total % u - halfBoxThreshold + halfBoxThreshold = total % u
      omega
    · intro hx
      exact absurd hx (by simp)
  next hc =>
    have hc' : ¬(item = bulkCucumberName ∧ halfBoxThreshold ≤ total % u) := by
      intro hx
      have ht : (item == bulkCucumberName && decide (halfBoxThreshold ≤ total % u)) = true := by
        simp [hx.1, hx.2]
      rw [ht] at hc
      exact hc rfl
    refine ⟨rfl, rfl, ?_, ?_, ?_, ?_⟩
    · show u * (total / u) + total % u + (if false = true then halfBoxThreshold else 0) = total
      have hred : (if false = true then halfBoxThreshold else 0) = 0 := rfl
      rw [hred]
      omega
    · constructor
      · intro hx
        exact absurd hx (by simp)
      · intro hx
        exact absurd hx hc'
    · intro hx
      exact absurd hx (by simp)
    · intro _
      rfl

/-- Witness for C1 at the spec's scenario B: total 170 of the bulk cucumber
gives one full box, half-box flag set, remainder 20. -/
theorem c1_boxesAndRemainder_witness :
    (itemRules.find? (fun r => r.1 == "胡瓜(バラ)")).map Prod.snd = some 100 ∧
    (boxesAndRemainder 170 "胡瓜(バラ)").unit = 100 ∧
    (boxesAndRemainder 170 "胡瓜(バラ)").boxes = 170 / 100 ∧
    (boxesAndRemainder 170 "胡瓜(バラ)").unit * (boxesAndRemainder 170 "胡瓜(バラ)").boxes +
        (boxesAndRemainder 170 "胡瓜(バラ)").remainder +
        (if (boxesAndRemainder 170 "胡瓜(バラ)").halfBoxFlag then halfBoxThreshold else 0) =
      170 ∧
    ((boxesAndRemainder 170 "胡瓜(バラ)").halfBoxFlag = true ↔
      "胡瓜(バラ)" = bulkCucumberName ∧ halfBoxThreshold ≤ 170 % 100) ∧
    ((boxesAndRemainder 170 "胡瓜(バラ)").halfBoxFlag = true →
      (boxesAndRemainder 170 "胡瓜(バラ)").remainder + halfBoxThreshold = 170 % 100) ∧
    ((boxesAndRemainder 170 "胡瓜(バラ)").halfBoxFlag = false →
      (boxesAndRemainder 170 "胡瓜(バラ)").remainder = 170 % 100) := by
  refine ⟨by rfl, ?_⟩
  have := c1_boxesAndRemainder 170 "胡瓜(バラ)" 100 (by rfl)
  exact this

/-- Helper: the stripped read of a loose field succeeds exactly on string or
absent fields. -/
theorem isSome_pyStripVal_getD (o : Option PyVal) :
    (pyStripVal (o.getD (PyVal.vStr ""))).isSome = isStrField o := by
  cases o with
  | none => rfl
  | some v => cases v <;> rfl

/-- The loop body succeeds exactly on candidates whose store, item and spec
fields survive `.strip()`. -/
theorem processEntry_isSome (a : Bool) (cfg : Config) (c : Candidate) :
    (processEntry a cfg c).isSome = wellTypedB c := by
  unfold processEntry wellTypedB
  cases hs : pyStripVal (c.store.getD (PyVal.vStr "")) with
  | none =>
    have h1 := isSome_pyStripVal_getD c.store
    rw [hs] at h1
    simp [← h1]
  | some s =>
    have h1 := isSome_pyStripVal_getD c.store
    rw [hs] at h1
    cases hi : pyStripVal (c.item.getD (PyVal.vStr "")) with
    | none =>
      have h2 := isSome_pyStripVal_getD c.item
      rw [hi] at h2
      simp [← h1, ← h2]
    | some i =>
      have h2 := isSome_pyStripVal_getD c.item
      rw [hi] at h2
      cases hp : pyStripVal (c.spec.getD (PyVal.vStr "")) with
      | none =>
        have h3 := isSome_pyStripVal_getD c.spec
        rw [hp] at h3
        simp [← h1, ← h2, ← h3]
      | some sp =>
        have h3 := isSome_pyStripVal_getD c.spec
        rw [hp] at h3
        simp [← h1, ← h2, ← h3]

/-- C10: the reconciliation is total exactly on candidate lists whose
store, item and spec values are strings or absent; a `None` or other
non-string value for one of these keys makes the run raise (modelled `none`)
instead of emitting a defaulted line. -/
theorem c10_totality (a : Bool) (cands : List Candidate) (cfg : Config) :
    (validate_and_fix_order_data a cands cfg).isSome = cands.all wellTypedB := by
  induction cands generalizing cfg with
  | nil => rfl
  | cons c rest ih =>
    rw [validate_and_fix_order_data]
    cases hp : processEntry a cfg c with
    | none =>
      have : wellTypedB c = false := by
        have := processEntry_isSome a cfg c
        rw [hp] at this
        exact this.symm
      simp [this]
    | some ec =>
      have hwc : wellTypedB c = true := by
        have := processEntry_isSome a cfg c
        rw [hp] at this
        exact this.symm
      cases hr : validate_and_fix_order_data a rest ec.2 with
      | none =>
        have : rest.all wellTypedB = false := by
          have := ih ec.2
          rw [hr] at this
          exact this.symm
        simp [hr, hwc, this]
      | some oc =>
        obtain ⟨es, cfg''⟩ := oc
        have : rest.all wellTypedB = true := by
          have := ih ec.2
          rw [hr] at this
          exact this.symm
        simp [hr, hwc, this]

/-- Keys of the mapping after a `defaultdict` update: unchanged when the key
is present, appended otherwise. -/
theorem addTotal_fst (m : List (String × Int)) (k : String) (v : Int) :
    (addTotal m k v).map Prod.fst =
      if (m.map Prod.fst).contains k then m.map Prod.fst else m.map Prod.fst ++ [k] := by
  induction m with
  | nil => simp [addTotal]
  | cons p ps ih =>
    by_cases hk : p.1 = k
    · simp [addTotal, hk]
    · have hbeq : (k == p.1) = false := beq_eq_false_iff_ne.mpr (fun hx => hk hx.symm)
      simp only [addTotal, if_neg hk, List.map_cons, List.contains_cons, hbeq, Bool.false_or]
      rw [ih]
      by_cases hc : ((ps.map Prod.fst).contains k) = true
      · rw [if_pos hc, if_pos hc]
      · rw [if_neg hc, if_neg hc]
        exact (List.cons_append _ _ _).symm

/-- Value at the updated key after a `defaultdict` update. -/
theorem lookupTot_addTotal_self (m : List (String × Int)) (k : String) (v : Int) :
    lookupTot (addTotal m k v) k = some ((lookupTot m k).getD 0 + v) := by
  induction m with
  | nil => simp [addTotal, lookupTot]
  | cons p ps ih =>
    by_cases hk : p.1 = k
    · simp [addTotal, lookupTot, hk]
    · simp [addTotal, lookupTot, hk, ih]

/-- Values at other keys are untouched by a `defaultdict` update. -/
theorem lookupTot_addTotal_ne (m : List (String × Int)) (k k' : String) (v : Int)
    (h : ¬k' = k) :
    lookupTot (addTotal m k v) k' = lookupTot m k' := by
  have h' : ¬k = k' := fun hx => h hx.symm
  induction m with
  | nil => simp [addTotal, lookupTot, h']
  | cons p ps ih =>
    by_cases hk : p.1 = k
    · have he : addTotal (p :: ps) k v = (p.1, p.2 + v) :: ps := by
        simp [addTotal, hk]
      have h2 : ¬p.1 = k' := by rw [hk]; exact h'
      rw [he]
      simp [lookupTot, h2]
    · have he : addTotal (p :: ps) k v = p :: addTotal ps k v := by
        simp [addTotal, hk]
      rw [he]
      by_cases hk' : p.1 = k'
      · simp [lookupTot, hk']
      · simp [lookupTot, hk', ih]

/-- Keys of the aggregation fold: first-occurrence deduplication of the item
names, continuing from any accumulator. -/
theorem item_totals_fold_fst (data : List Entry) :
    ∀ acc : List (String × Int),
      ((data.foldl (fun acc e => addTotal acc e.item (lineTotal e)) acc).map Prod.fst) =
        dedupInto (acc.map Prod.fst) (data.map Entry.item) := by
  induction data with
  | nil => intro acc; rfl
  | cons e data ih =>
    intro acc
    have step : (List.foldl (fun acc e => addTotal acc e.item (lineTotal e)) acc (e :: data)) =
        List.foldl (fun acc e => addTotal acc e.item (lineTotal e))
          (addTotal acc e.item (lineTotal e)) data := rfl
    rw [step, ih, addTotal_fst]
    show dedupInto (if (acc.map Prod.fst).contains e.item then acc.map Prod.fst
        else acc.map Prod.fst ++ [e.item]) (data.map Entry.item) =
      dedupInto (acc.map Prod.fst) (e.item :: data.map Entry.item)
    rw [dedupInto]

/-- Value of the aggregation fold at a key, continuing from any
accumulator. -/
theorem item_totals_fold_lookup (data : List Entry) :
    ∀ (acc : List (String × Int)) (k : String),
      lookupTot (data.foldl (fun acc e => addTotal acc e.item (lineTotal e)) acc) k =
        match lookupTot acc k with
        | some w => some (w + sumFor data k)
        | none =>
          if (data.map Entry.item).contains k then some (sumFor data k) else none := by
  induction data with
  | nil =>
    intro acc k
    cases hw : lookupTot acc k <;> simp [sumFor, hw]
  | cons e data ih =>
    intro acc k
    have step : (List.foldl (fun acc e => addTotal acc e.item (lineTotal e)) acc (e :: data)) =
        List.foldl (fun acc e => addTotal acc e.item (lineTotal e))
          (addTotal acc e.item (lineTotal e)) data := rfl
    rw [step, ih]
    by_cases hk : e.item = k
    · subst hk
      rw [lookupTot_addTotal_self]
      cases hw : lookupTot acc e.item with
      | none => simp [hw, sumFor]
      | some w => simp [hw, sumFor, add_assoc]
    · rw [lookupTot_addTotal_ne acc e.item k (lineTotal e) (fun hx => hk hx.symm)]
      have hbeq : (k == e.item) = false := beq_eq_false_iff_ne.mpr (fun hx => hk hx.symm)
      have hk2 : ¬k = e.item := fun hx => hk hx.symm
      cases hw : lookupTot acc k with
      | none => simp [hw, sumFor, hk, hk2, hbeq]
      | some w => simp [hw, sumFor, hk]

/-- C6: the summary aggregation produces a mapping keyed by item name whose
value at each occurring item is the sum of that item's line totals
(`unit*boxes + remainder`; a reconciled line carries no half-box flag, so the
claim's conditional 50 contributes nothing), absent items are absent, and the
key order is the insertion order of each item's first occurrence;
`summary_packs` is the same aggregation as `item_totals`. -/
theorem c6_item_totals (data : List Entry) :
    (item_totals data).map Prod.fst = dedupFirst (data.map Entry.item) ∧
    (∀ k, lookupTot (item_totals data) k =
      if (data.map Entry.item).contains k then some (sumFor data k) else none) ∧
    summary_packs data = item_totals data := by
  refine ⟨?_, ?_, rfl⟩
  · have := item_totals_fold_fst data []
    simpa [item_totals, dedupFirst] using this
  · intro k
    have := item_totals_fold_lookup data [] k
    simpa [item_totals, lookupTot] using this

/-- With auto-learn disabled the store validator never mutates the
configuration. -/
theorem validate_store_name_false_cfg (s : String) (cfg : Config) :
    (validate_store_name s false cfg).2 = cfg := by
  unfold validate_store_name
  dsimp only
  repeat' split
  all_goals simp_all

/-- With auto-learn disabled the item normalizer never mutates the
configuration. -/
theorem normalize_item_name_false_cfg (i : String) (cfg : Config) :
    (normalize_item_name i false cfg).2 = cfg := by
  unfold normalize_item_name
  dsimp only
  repeat' split
  all_goals simp_all

/-- With auto-learn disabled the store resolution never mutates the
configuration. -/
theorem resolveStore_false_cfg (cfg : Config) (s : String) :
    (resolveStore false cfg s).2 = cfg := by
  unfold resolveStore
  dsimp only
  repeat' split
  all_goals simp_all [validate_store_name_false_cfg]

/-- With auto-learn disabled the item resolution never mutates the
configuration. -/
theorem resolveItem_false_cfg (cfg : Config) (i : String) :
    (resolveItem false cfg i).2 = cfg := by
  unfold resolveItem
  dsimp only
  repeat' split
  all_goals simp_all [normalize_item_name_false_cfg]

/-- When the validator and the character heuristic both fail, the store
resolution answers `none` (so the raw text will be kept). -/
theorem resolveStore_false_fallback (cfg : Config) (s : String)
    (hv : validate_store_name s false cfg = (none, cfg))
    (hh : charHeuristic cfg.stores s = none) :
    (resolveStore false cfg s).1 = none := by
  unfold resolveStore
  simp only [hv]
  by_cases hs : s = ""
  · subst hs
    simp [pyFalsyOpt]
  · have hnb : (!(s == "")) = true := by simpa using hs
    simp [pyFalsyOpt, hnb, hh]

/-- Empty store text resolves to `none` with no configuration change. -/
theorem resolveStore_empty (a : Bool) (cfg : Config) :
    resolveStore a cfg "" = (none, cfg) := by
  unfold resolveStore validate_store_name
  simp [pyFalsyOpt]

/-- Empty item text resolves to the empty string with no configuration
change. -/
theorem resolveItem_empty (a : Bool) (cfg : Config) :
    resolveItem a cfg "" = ("", cfg) := by
  unfold resolveItem normalize_item_name
  simp

/-- A well-typed candidate yields stripped strings for its three text
fields. -/
theorem wellTyped_strings (c : Candidate) (h : wellTypedB c = true) :
    ∃ s i sp, pyStripVal (c.store.getD (PyVal.vStr "")) = some s ∧
      pyStripVal (c.item.getD (PyVal.vStr "")) = some i ∧
      pyStripVal (c.spec.getD (PyVal.vStr "")) = some sp := by
  unfold wellTypedB at h
  rw [Bool.and_eq_true, Bool.and_eq_true] at h
  obtain ⟨⟨h1, h2⟩, h3⟩ := h
  have e1 : (pyStripVal (c.store.getD (PyVal.vStr ""))).isSome = true := by
    rw [isSome_pyStripVal_getD]; exact h1
  have e2 : (pyStripVal (c.item.getD (PyVal.vStr ""))).isSome = true := by
    rw [isSome_pyStripVal_getD]; exact h2
  have e3 : (pyStripVal (c.spec.getD (PyVal.vStr ""))).isSome = true := by
    rw [isSome_pyStripVal_getD]; exact h3
  obtain ⟨s, hs⟩ := Option.isSome_iff_exists.mp e1
  obtain ⟨i, hi⟩ := Option.isSome_iff_exists.mp e2
  obtain ⟨sp, hsp⟩ := Option.isSome_iff_exists.mp e3
  exact ⟨s, i, sp, hs, hi, hsp⟩

/-- Computation law of the reconciliation fold on a cons cell. -/
theorem validate_and_fix_cons (a : Bool) (c : Candidate) (rest : List Candidate)
    (cfg : Config) (e : Entry) (cfg2 : Config) (out : List Entry) (cfg3 : Config)
    (h1 : processEntry a cfg c = some (e, cfg2))
    (h2 : validate_and_fix_order_data a rest cfg2 = some (out, cfg3)) :
    validate_and_fix_order_data a (c :: rest) cfg = some (e :: out, cfg3) := by
  simp only [validate_and_fix_order_data, h1, h2]

/-- Computation law of the loop body on a well-typed candidate, exposing the
resolved store, the resolved item, the stripped spec and the three `safe_int`
coercions. -/
theorem processEntry_eq (a : Bool) (cfg : Config) (c : Candidate) (s i sp : String)
    (hs : pyStripVal (c.store.getD (PyVal.vStr "")) = some s)
    (hi : pyStripVal (c.item.getD (PyVal.vStr "")) = some i)
    (hp : pyStripVal (c.spec.getD (PyVal.vStr "")) = some sp) :
    processEntry a cfg c =
      some (⟨pyOr (resolveStore a cfg s).1 s,
             (if (resolveItem a (resolveStore a cfg s).2 i).1 = "" then i
              else (resolveItem a (resolveStore a cfg s).2 i).1),
             sp, safe_int (c.unit.getD (PyVal.vInt 0)),
             safe_int (c.boxes.getD (PyVal.vInt 0)),
             safe_int (c.remainder.getD (PyVal.vInt 0))⟩,
        (resolveItem a (resolveStore a cfg s).2 i).2) := by
  unfold processEntry
  rw [hs, hi, hp]

/-- C2: reconciliation emits exactly one output line per input candidate, in
input order, and never drops a line; when both the store validation and the
error-branch character heuristic fail, the raw (stripped) store text is kept
as the emitted store value. -/
theorem c2_reconcile_preserves_lines (a : Bool) (cands : List Candidate) (cfg : Config)
    (h : cands.all wellTypedB = true) :
    ∃ out cfg', validate_and_fix_order_data a cands cfg = some (out, cfg') ∧
      out.length = cands.length ∧
      (a = false → ∀ (idx : Nat) (c : Candidate), cands[idx]? = some c →
        validate_store_name (rawStoreOf c) false cfg = (none, cfg) →
        charHeuristic cfg.stores (rawStoreOf c) = none →
        ∃ e, out[idx]? = some e ∧ e.store = rawStoreOf c) := by
  induction cands generalizing cfg with
  | nil =>
    refine ⟨[], cfg, rfl, rfl, ?_⟩
    intro _ idx c hc
    cases idx <;> simp at hc
  | cons c rest ih =>
    rw [List.all_cons, Bool.and_eq_true] at h
    obtain ⟨hwt, hrest⟩ := h
    obtain ⟨s, i, sp, hs, hi, hsp⟩ := wellTyped_strings c hwt
    have he := processEntry_eq a cfg c s i sp hs hi hsp
    obtain ⟨out, cfg', hval, hlen, hpos⟩ :=
      ih (resolveItem a (resolveStore a cfg s).2 i).2 hrest
    refine ⟨_, _, validate_and_fix_cons a c rest cfg _ _ out cfg' he hval,
      by simp [hlen], ?_⟩
    · intro ha idx c' hc' hv hh
      subst ha
      have hcfg2 : (resolveItem false (resolveStore false cfg s).2 i).2 = cfg := by
        rw [resolveItem_false_cfg, resolveStore_false_cfg]
      cases idx with
      | zero =>
        rw [List.getElem?_cons_zero] at hc'
        have hcc : c' = c := by injection hc' with h'; exact h'.symm
        subst hcc
        have hraw : rawStoreOf c' = s := by
          unfold rawStoreOf
          rw [hs]
          rfl
        rw [hraw] at hv hh
        refine ⟨_, List.getElem?_cons_zero, ?_⟩
        show pyOr (resolveStore false cfg s).1 s = rawStoreOf c'
        rw [resolveStore_false_fallback cfg s hv hh, hraw]
        rfl
      | succ n =>
        rw [List.getElem?_cons_succ] at hc'
        rw [hcfg2] at hpos
        obtain ⟨e, hidx, hst⟩ := hpos rfl n c' hc' hv hh
        exact ⟨e, by rw [List.getElem?_cons_succ]; exact hidx, hst⟩

/-- Witness for C2: a one-line candidate list with an unknown store name,
reconciled without auto-learn, still emits its line. -/
theorem c2_reconcile_preserves_lines_witness :
    (validate_and_fix_order_data false [candUnknownStore] cfgW).isSome = true ∧
    [candUnknownStore].all wellTypedB = true := by
  constructor
  · obtain ⟨out, cfg', heq, _, _⟩ :=
      c2_reconcile_preserves_lines false [candUnknownStore] cfgW (by decide)
    rw [heq]
    rfl
  · decide

/-- C3 counterexample: a candidate carrying the integer -5 in its unit field
is emitted with a negative unit — the coerced numeric values are not always
nonnegative, because `safe_int` passes `int` inputs through unchanged. -/
theorem c3_cex :
    validate_and_fix_order_data true [candNeg] cfgW = some ([entryNeg], cfgW) ∧
    entryNeg.unit < 0 := by
  constructor
  · decide
  · decide

/-- C3 amended: string values are coerced by stripping non-digit characters
(hence to nonnegative integers), missing or `None` numeric values give 0,
and every emitted line is non-null-coercible (store, item and spec default to
the empty string, the numeric fields to 0); but an integer value is passed
through unchanged, so a negative candidate integer survives. -/
theorem c3_amended :
    (∀ s : String, 0 ≤ safe_int (PyVal.vStr s)) ∧
    safe_int PyVal.vNone = 0 ∧
    (∀ n : Int, safe_int (PyVal.vInt n) = n) ∧
    (∀ (a : Bool) (cfg : Config),
      validate_and_fix_order_data a [blankCandidate] cfg = some ([blankEntry], cfg)) ∧
    (∀ (a : Bool) (cfg : Config) (c : Candidate), wellTypedB c = true →
      ∃ e cfg', processEntry a cfg c = some (e, cfg') ∧
        e.unit = safe_int (c.unit.getD (PyVal.vInt 0)) ∧
        e.boxes = safe_int (c.boxes.getD (PyVal.vInt 0)) ∧
        e.remainder = safe_int (c.remainder.getD (PyVal.vInt 0))) := by
  refine ⟨?_, rfl, fun n => rfl, ?_, ?_⟩
  · intro s
    unfold safe_int
    dsimp only
    split
    · exact le_refl 0
    · exact Int.ofNat_nonneg _
  · intro a cfg
    rw [validate_and_fix_order_data, processEntry_eq a cfg blankCandidate "" "" "" rfl rfl rfl,
      resolveStore_empty, resolveItem_empty]
    rfl
  · intro a cfg c hwt
    obtain ⟨s, i, sp, hs, hi, hsp⟩ := wellTyped_strings c hwt
    exact ⟨_, _, processEntry_eq a cfg c s i sp hs hi hsp, rfl, rfl, rfl⟩

/-- Witness for C3's amended theorem at a concrete candidate. -/
theorem c3_amended_witness :
    (processEntry true cfgW candNeg).isSome = true ∧ wellTypedB candNeg = true := by
  constructor
  · obtain ⟨e, cfg', he, _, _, _⟩ := c3_amended.2.2.2.2 true cfgW candNeg (by decide)
    rw [he]
    rfl
  · decide

/-- A non-empty stripped known store name validates to itself exactly and is
returned untouched by the store resolution. -/
theorem resolveStore_known (cfg : Config) (st : String) (hne : ¬st = "")
    (hm : cfg.stores.contains st = true) (hs : pyStrip st = st) :
    resolveStore true cfg st = (some st, cfg) := by
  have hval : validate_store_name st true cfg = (some st, cfg) := by
    unfold validate_store_name
    rw [if_neg hne]
    dsimp only
    rw [hs, hm]
    rfl
  unfold resolveStore
  rw [hval]
  dsimp only
  have hfal : (pyFalsyOpt (some st) && !(st == "")) = false := by
    have : (st == "") = false := beq_eq_false_iff_ne.mpr hne
    simp [pyFalsyOpt, this]
  rw [hfal]
  simp

/-- A non-empty stripped item name whose first alias-table match is its own
entry is returned untouched by the item resolution. -/
theorem resolveItem_fixed_key (cfg : Config) (it : String) (hne : ¬it = "")
    (hs : pyStrip it = it) (hm : firstItemMatch cfg.items it = some it) :
    resolveItem true cfg it = (it, cfg) := by
  have hnorm : normalize_item_name it true cfg = (it, cfg) := by
    unfold normalize_item_name
    rw [if_neg hne]
    dsimp only
    rw [hs, hm]
  unfold resolveItem
  rw [hnorm]
  dsimp only
  have hfal : ((it == "") && !(it == "")) = false := by
    have : (it == "") = false := beq_eq_false_iff_ne.mpr hne
    simp [this]
  rw [hfal]
  simp

/-- An entry whose store is empty or a stripped known store, whose item is
empty or first-matches its own alias entry, and whose spec is stripped, is a
fixed point of the loop body (and leaves the configuration unchanged). -/
theorem processEntry_fixed (cfg : Config) (e : Entry)
    (h1 : e.store = "" ∨ (cfg.stores.contains e.store = true ∧ pyStrip e.store = e.store))
    (h2 : e.item = "" ∨ (pyStrip e.item = e.item ∧ firstItemMatch cfg.items e.item = some e.item))
    (h3 : pyStrip e.spec = e.spec) :
    processEntry true cfg (entryToCandidate e) = some (e, cfg) := by
  obtain ⟨st, it, sp, un, bx, rm⟩ := e
  dsimp only at h1 h2 h3
  have hps : pyStrip "" = "" := rfl
  have heq := processEntry_eq true cfg (entryToCandidate ⟨st, it, sp, un, bx, rm⟩)
    (pyStrip st) (pyStrip it) (pyStrip sp) rfl rfl rfl
  rw [heq, h3]
  have hstore : resolveStore true cfg (pyStrip st) =
      ((if st = "" then none else some st), cfg) := by
    by_cases hse : st = ""
    · rw [hse, if_pos rfl, hps]
      exact resolveStore_empty true cfg
    · rcases h1 with h1 | ⟨h1m, h1s⟩
      · exact absurd h1 hse
      · rw [if_neg hse, h1s]
        exact resolveStore_known cfg st hse h1m h1s
  have hitem : resolveItem true cfg (pyStrip it) =
      ((if it = "" then "" else it), cfg) := by
    by_cases hie : it = ""
    · rw [hie, if_pos rfl, hps]
      exact resolveItem_empty true cfg
    · rcases h2 with h2 | ⟨h2s, h2m⟩
      · exact absurd h2 hie
      · rw [if_neg hie, h2s]
        exact resolveItem_fixed_key cfg it hie h2s h2m
  rw [hstore]
  dsimp only
  rw [hitem]
  by_cases hse : st = "" <;> by_cases hie : it = "" <;>
    simp [hse, hie, pyOr, hps, safe_int, entryToCandidate]

/-- C8 amended: reconciliation is idempotent on every already-reconciled list
whose emitted stores are empty or stripped members of the store list and
whose emitted items are empty or first-match their own alias entry (spec
fields being stripped); re-running on such output reproduces it exactly.
The claim's unconditional idempotence fails for other alias tables. -/
theorem c8_idempotent (cfg : Config) (out : List Entry)
    (h1 : ∀ e ∈ out, e.store = "" ∨
      (cfg.stores.contains e.store = true ∧ pyStrip e.store = e.store))
    (h2 : ∀ e ∈ out, e.item = "" ∨
      (pyStrip e.item = e.item ∧ firstItemMatch cfg.items e.item = some e.item))
    (h3 : ∀ e ∈ out, pyStrip e.spec = e.spec) :
    validate_and_fix_order_data true (out.map entryToCandidate) cfg = some (out, cfg) := by
  induction out with
  | nil => rfl
  | cons e rest ih =>
    have hpe := processEntry_fixed cfg e (h1 e (by simp)) (h2 e (by simp)) (h3 e (by simp))
    have hrest := ih (fun x hx => h1 x (by simp [hx])) (fun x hx => h2 x (by simp [hx]))
      (fun x hx => h3 x (by simp [hx]))
    exact validate_and_fix_cons true (entryToCandidate e) (rest.map entryToCandidate) cfg
      e cfg rest cfg hpe hrest

/-- Witness for C8's amended theorem at a concrete stable configuration. -/
theorem c8_idempotent_witness :
    validate_and_fix_order_data true ([entryW].map entryToCandidate) cfgW =
      some ([entryW], cfgW) :=
  c8_idempotent cfgW [entryW] (by decide) (by decide) (by decide)

/-- C8 counterexample: with the alias table of `cfgX` (variant "2" of key KA
substring-matches the other key K2), the candidate with item text "x"
reconciles to item K2, and reconciling that output again yields item KA —
the values are not idempotent. -/
theorem c8_cex :
    validate_and_fix_order_data true [candX] cfgX = some ([entryX1], cfgX) ∧
    validate_and_fix_order_data true ([entryX1].map entryToCandidate) cfgX =
      some ([entryX2], cfgX) ∧
    ¬entryX1 = entryX2 := by
  exact ⟨by decide, by decide, by decide⟩

/-- The retry loop returns `none` when every attempted response fails to
parse. -/
theorem tryAttempts_all_fail (parse : String → Option Json) (responses : Nat → String) :
    ∀ n i : Nat, (∀ j, j < n → parse (pyStrip (extract_payload (responses (i + j)))) = none) →
      tryAttempts parse responses i n = none := by
  intro n
  induction n with
  | zero => intro i _; rfl
  | succ n ih =>
    intro i h
    rw [tryAttempts]
    have h0 := h 0 (Nat.succ_pos n)
    rw [Nat.add_zero] at h0
    rw [h0]
    refine ih (i + 1) (fun j hj => ?_)
    have hx := h (j + 1) (by omega)
    have heq : i + (j + 1) = i + 1 + j := by omega
    rwa [heq] at hx

/-- The retry loop returns the first successfully parsed payload. -/
theorem tryAttempts_succeeds (parse : String → Option Json) (responses : Nat → String) :
    ∀ (n i k : Nat) (d : Json), k < n →
      (∀ j, j < k → parse (pyStrip (extract_payload (responses (i + j)))) = none) →
      parse (pyStrip (extract_payload (responses (i + k)))) = some d →
      tryAttempts parse responses i n = some d := by
  intro n
  induction n with
  | zero => intro i k d hk _ _; exact absurd hk (Nat.not_lt_zero k)
  | succ n ih =>
    intro i k d hk hfail hsucc
    rw [tryAttempts]
    cases k with
    | zero =>
      rw [Nat.add_zero] at hsucc
      rw [hsucc]
    | succ k2 =>
      have h0 := hfail 0 (Nat.succ_pos k2)
      rw [Nat.add_zero] at h0
      rw [h0]
      refine ih (i + 1) k2 d (by omega) (fun j hj => ?_) ?_
      · have hx := hfail (j + 1) (by omega)
        have heq : i + (j + 1) = i + 1 + j := by omega
        rwa [heq] at hx
      · have heq : i + (k2 + 1) = i + 1 + k2 := by omega
        rwa [heq] at hsucc

/-- C4: an AI strategy whose responses all fail to parse retries up to the
fixed bound and then returns the unrecognized result `None` instead of
raising; a response that parses at attempt `k` within the bound is returned
as-is. -/
theorem c4_retry_bound (parse : String → Option Json) (responses : Nat → String)
    (max_retries : Nat) :
    ((∀ i, i < max_retries → parse (pyStrip (extract_payload (responses i))) = none) →
      get_order_data_from_text parse responses max_retries = none) ∧
    (∀ k d, k < max_retries →
      (∀ i, i < k → parse (pyStrip (extract_payload (responses i))) = none) →
      parse (pyStrip (extract_payload (responses k))) = some d →
      get_order_data_from_text parse responses max_retries = some d) := by
  constructor
  · intro h
    exact tryAttempts_all_fail parse responses max_retries 0
      (fun j hj => by simpa using h j hj)
  · intro k d hk hfail hsucc
    exact tryAttempts_succeeds parse responses max_retries 0 k d hk
      (fun j hj => by simpa using hfail j hj) (by simpa using hsucc)

/-- Witness for C4: with a parser that always fails, three attempts end in
`None`. -/
theorem c4_retry_bound_witness :
    get_order_data_from_text parseNone respConst 3 = none :=
  (c4_retry_bound parseNone respConst 3).1 (fun _ _ => rfl)

/-- C5 amended: with OCR enabled (the default at every call site), the hybrid
dispatch uses the AI-text interpretation of the OCR text exactly when OCR
produced text of stripped length above 10 and the interpretation returns a
truthy value; in every other case — no or short OCR text, failed or falsy
interpretation — it falls back to the AI-vision result.  No confidence score
is computed or consulted. -/
theorem c5_dispatch (o : Option String) (tr : String → Option Json) (v : Option Json) :
    (∀ t d, o = some t → ¬t = "" → 10 < (pyStrip t).data.length → tr t = some d →
      pyTruthy d = true → get_order_data true o tr v = some d) ∧
    ((¬∃ t d, o = some t ∧ ¬t = "" ∧ 10 < (pyStrip t).data.length ∧ tr t = some d ∧
      pyTruthy d = true) → get_order_data true o tr v = v) := by
  have hout : ∀ t : String, get_order_data true (some t) tr v =
      (if ¬t = "" ∧ 10 < (pyStrip t).data.length then
        match tr t with
        | some d => if pyTruthy d then some d else v
        | none => v
      else v) := fun t => rfl
  constructor
  · intro t d ho hne hlen htr htru
    subst ho
    have hcond : ¬t = "" ∧ 10 < (pyStrip t).data.length := ⟨hne, hlen⟩
    rw [hout t, if_pos hcond, htr]
    dsimp only
    rw [if_pos htru]
  · intro hn
    cases o with
    | none => rfl
    | some t =>
      rw [hout t]
      by_cases hc : ¬t = "" ∧ 10 < (pyStrip t).data.length
      · rw [if_pos hc]
        cases htr : tr t with
        | none => rfl
        | some d =>
          by_cases htru : pyTruthy d = true
          · exact absurd ⟨t, d, rfl, hc.1, hc.2, htr, htru⟩ hn
          · dsimp only
            rw [if_neg htru]
      · rw [if_neg hc]

/-- Witness for C5's amended theorem: a 12-character OCR text whose
interpretation yields two lines is used, no fallback. -/
theorem c5_dispatch_witness :
    get_order_data true (some longT) trStub vStub = some (Json.arr cexLines) :=
  (c5_dispatch (some longT) trStub vStub).1 longT (Json.arr cexLines) rfl (by decide)
    (by decide) rfl rfl

/-- C5 counterexample: the dispatcher of the source, given OCR-derived lines,
returns them with no confidence check, while the claim's dispatcher at
average confidence 45 with the same 2 parsed lines discards them for the
AI-vision result — and the two results differ. -/
theorem c5_cex :
    get_order_data true (some longT) trStub vStub = some (Json.arr cexLines) ∧
    hybridDispatchClaim cexLines 45 vStub = vStub ∧
    (get_order_data true (some longT) trStub vStub).map Json.isArr = some true ∧
    (hybridDispatchClaim cexLines 45 vStub).map Json.isArr = some false := by
  exact ⟨rfl, rfl, rfl, rfl⟩

/-- C7 counterexample: the whitespace-only input " " is non-empty, yet
normalization returns the empty string — the stripped text is empty, matches
no alias entry, and learning it yields the empty canonical name. -/
theorem c7_cex :
    (normalize_item_name " " true cfg7).1 = "" ∧ ¬(" " : String) = "" := by
  exact ⟨by decide, by decide⟩

/-- C7 amended: normalization returns the empty string for empty input
without raising; for every input that is still non-empty after whitespace
stripping it returns a non-empty canonical string (an alias-table key or the
learned name), provided the configured alias keys are non-empty.  The
function is total (never raises) by construction. -/
theorem c7_normalize_total :
    (∀ (a : Bool) (cfg : Config), normalize_item_name "" a cfg = ("", cfg)) ∧
    (∀ (name : String) (a : Bool) (cfg : Config), ¬pyStrip name = "" →
      (∀ kv ∈ cfg.items, ¬kv.1 = "") → ¬(normalize_item_name name a cfg).1 = "") := by
  constructor
  · intro a cfg
    rfl
  · intro name a cfg hst hkeys
    have hne : ¬name = "" := by
      intro h
      subst h
      exact hst rfl
    unfold normalize_item_name
    rw [if_neg hne]
    dsimp only
    cases hm : firstItemMatch cfg.items (pyStrip name) with
    | some k =>
      obtain ⟨kv, hfind, hfst⟩ := Option.map_eq_some'.mp hm
      dsimp only
      intro hk0
      exact hkeys kv (List.mem_of_find?_eq_some hfind) (by rw [hfst, hk0])
    | none =>
      cases a with
      | true => simpa [auto_learn_item] using hst
      | false => simpa using hst

/-- Witness for C7's amended theorem at a concrete input and table. -/
theorem c7_normalize_total_witness :
    ¬(normalize_item_name "abc" true cfg7).1 = "" :=
  c7_normalize_total.2 "abc" true cfg7 (by decide) (by decide)

/-- A list is a Python-prefix of itself followed by anything. -/
theorem isPrefixOf_append_self (l r : List Char) : l.isPrefixOf (l ++ r) = true := by
  induction l with
  | nil => simp [List.isPrefixOf]
  | cons c t ih => simp [List.isPrefixOf, ih]

/-- A separator occurring literally in a concatenation is found by the
substring test. -/
theorem listInfixOf_append_self (s a b : List Char) :
    listInfixOf s (a ++ (s ++ b)) = true := by
  induction a with
  | nil =>
    cases s with
    | nil => cases b <;> simp [listInfixOf, List.isPrefixOf]
    | cons c t => simp [listInfixOf, isPrefixOf_append_self]
  | cons x a2 ih => simp [listInfixOf, ih]

/-- A needle starting with a character that never occurs in the haystack is
not a substring of it. -/
theorem listInfixOf_head_free (sh : Char) (st p : List Char)
    (hp : ∀ c ∈ p, (c == sh) = false) : listInfixOf (sh :: st) p = false := by
  induction p with
  | nil => rfl
  | cons c cs ih =>
    have hc : (c == sh) = false := hp c (List.mem_cons_self c cs)
    have hsh : (sh == c) = false := by
      have hne : ¬c = sh := by simpa using hc
      exact beq_eq_false_iff_ne.mpr (fun hE => hne hE.symm)
    have ih2 := ih (fun d hd => hp d (List.mem_cons_of_mem _ hd))
    simp [listInfixOf, List.isPrefixOf, hsh, ih2]

/-- Python split at the first separator occurrence: splitting text made of a
separator-head-free prefix, the separator, and a remainder cuts exactly at
the separator. -/
theorem pySplit_boundary (sh : Char) (st b : List Char) :
    ∀ a : List Char, (∀ c ∈ a, (c == sh) = false) →
      pySplit (sh :: st) (a ++ ((sh :: st) ++ b)) = a :: pySplit (sh :: st) b := by
  intro a
  induction a with
  | nil =>
    intro _
    show pySplit (sh :: st) (sh :: (st ++ b)) = [] :: pySplit (sh :: st) b
    have h1 : ((sh :: st).isPrefixOf (sh :: (st ++ b))) = true :=
      isPrefixOf_append_self (sh :: st) b
    rw [pySplit]
    simp [h1, List.drop_left]
  | cons x a2 ih =>
    intro ha
    have hx : (x == sh) = false := ha x (List.mem_cons_self x a2)
    have hsh : (sh == x) = false := by
      have hne : ¬x = sh := by simpa using hx
      exact beq_eq_false_iff_ne.mpr (fun hE => hne hE.symm)
    have ha2 : ∀ c ∈ a2, (c == sh) = false := fun c hc => ha c (List.mem_cons_of_mem _ hc)
    have hpre : ((sh :: st).isPrefixOf (x :: (a2 ++ ((sh :: st) ++ b)))) = false := by
      simp [List.isPrefixOf, hsh]
    show pySplit (sh :: st) (x :: (a2 ++ ((sh :: st) ++ b))) =
      (x :: a2) :: pySplit (sh :: st) b
    rw [pySplit]
    simp only [hpre, Bool.false_and, Bool.false_eq_true, if_false]
    rw [ih ha2]

/-- Python split on text without the separator yields the whole text. -/
theorem pySplit_no_occurrence (sep l : List Char) (h : listInfixOf sep l = false) :
    pySplit sep l = [l] := by
  induction l with
  | nil => rw [pySplit]
  | cons c cs ih =>
    rw [listInfixOf] at h
    rw [Bool.or_eq_false_iff] at h
    rw [pySplit]
    simp only [h.1, Bool.false_and, Bool.false_eq_true, if_false]
    rw [ih h.2]

/-- The fence markers in list form. -/
theorem fenceJson_cons : fenceJson = btickChar :: String.data "``json" := by decide

/-- The bare fence marker in list form. -/
theorem fence_cons : fence = btickChar :: String.data "``" := by decide

/-- The JSON fence is the bare fence followed by the word json. -/
theorem fenceJson_decomp : fenceJson = fence ++ String.data "json" := by decide

/-- Fence extraction law: a payload wrapped in a JSON code fence, with
backtick-free text around it (and either the trailing text opening with the
word json — re-creating a fence marker — or no stray JSON fence after the
payload), is extracted exactly. -/
theorem extract_payload_fenced (a p b : List Char)
    (ha : ∀ c ∈ a, (c == btickChar) = false)
    (hp : ∀ c ∈ p, (c == btickChar) = false)
    (hb : (String.data "json").isPrefixOf b = true ∨
      listInfixOf fenceJson (p ++ (fence ++ b)) = false) :
    extract_payload (String.mk (a ++ (fenceJson ++ (p ++ (fence ++ b))))) = String.mk p := by
  have hin : listInfixOf fenceJson (a ++ (fenceJson ++ (p ++ (fence ++ b)))) = true :=
    listInfixOf_append_self _ _ _
  have hsplit1 : pySplit fenceJson (a ++ (fenceJson ++ (p ++ (fence ++ b)))) =
      a :: pySplit fenceJson (p ++ (fence ++ b)) := by
    rw [fenceJson_cons]
    exact pySplit_boundary btickChar _ _ a ha
  have hnofence : listInfixOf fence p = false := by
    rw [fence_cons]
    exact listInfixOf_head_free btickChar _ p hp
  unfold extract_payload
  dsimp only
  rw [if_pos hin, hsplit1]
  rw [List.getD_cons_succ]
  rcases hb with hb | hb
  · obtain ⟨b2, hb2⟩ := List.isPrefixOf_iff_prefix.mp hb
    subst hb2
    have hassoc : p ++ (fence ++ (String.data "json" ++ b2)) = p ++ (fenceJson ++ b2) := by
      rw [fenceJson_decomp, List.append_assoc]
    rw [hassoc]
    have hsplit2 : pySplit fenceJson (p ++ (fenceJson ++ b2)) =
        p :: pySplit fenceJson b2 := by
      rw [fenceJson_cons]
      exact pySplit_boundary btickChar _ _ p hp
    rw [hsplit2, List.getD_cons_zero, pySplit_no_occurrence fence p hnofence,
      List.getD_cons_zero]
  · rw [pySplit_no_occurrence fenceJson _ hb, List.getD_cons_zero]
    have hsplit3 : pySplit fence (p ++ (fence ++ b)) = p :: pySplit fence b := by
      rw [fence_cons]
      exact pySplit_boundary btickChar _ _ p hp
    rw [hsplit3, List.getD_cons_zero]

/-- C9 amended: the AI strategies extract the JSON payload from a fenced code
block, and the parsed payload is returned exactly as parsed — a bare JSON
object is returned as an object, not wrapped as a singleton list, so the
returned value is a list only when the model already sent an array. -/
theorem c9_fence_and_no_wrap :
    (∀ a p b : List Char,
      (∀ c ∈ a, (c == btickChar) = false) →
      (∀ c ∈ p, (c == btickChar) = false) →
      ((String.data "json").isPrefixOf b = true ∨
        listInfixOf fenceJson (p ++ (fence ++ b)) = false) →
      extract_payload (String.mk (a ++ (fenceJson ++ (p ++ (fence ++ b))))) = String.mk p) ∧
    (∀ (parse : String → Option Json) (responses : Nat → String) (n : Nat)
      (o : List (String × Json)), 0 < n →
      parse (pyStrip (extract_payload (responses 0))) = some (Json.obj o) →
      get_order_data_from_text parse responses n = some (Json.obj o) ∧
      Json.isArr (Json.obj o) = false) := by
  refine ⟨extract_payload_fenced, ?_⟩
  intro parse responses n o hn hparse
  refine ⟨?_, rfl⟩
  cases n with
  | zero => exact absurd hn (by omega)
  | succ n2 =>
    unfold get_order_data_from_text
    rw [tryAttempts, hparse]

/-- Witness for C9's amended theorem: a concrete fenced payload is extracted,
and a parser returning a bare object at the first attempt propagates it. -/
theorem c9_fence_and_no_wrap_witness :
    extract_payload (String.mk (aW ++ (fenceJson ++ (pW ++ (fence ++ bW))))) =
      String.mk pW ∧
    get_order_data_from_text parseObjStub respObjStub 3 = some (Json.obj []) := by
  constructor
  · exact c9_fence_and_no_wrap.1 aW pW bW (by decide) (by decide) (Or.inr (by decide))
  · exact (c9_fence_and_no_wrap.2 parseObjStub respObjStub 3 [] (by decide) rfl).1

/-- C9 counterexample: a response whose payload parses to a bare JSON object
is returned as that object — not wrapped into a singleton list — so the
strategy's return value is not always a list of candidate lines. -/
theorem c9_cex :
    get_order_data_from_text parseObjStub respObjStub 3 = some (Json.obj []) ∧
    Json.isArr (Json.obj []) = false := by
  exact ⟨rfl, rfl⟩

end KF
